import Mathlib

/-!
# Paging simulator (`lab08.c`): page tables, frame allocation, address translation

A shallow embedding of `src/lab08.c` and the properties of its specification.

Conventions of the embedding.

* A C `int` is a Lean `Int`. The one computation of the program whose result
  can leave the range of a 32-bit `int`, the physical address
  `frame_number * TAMANHO_PAGINA + offset` of `translate_address`, is reduced
  by `wrap_int` after each operation (two-complement wrap-around, what the
  usual builds compute for a signed overflow). The other computations work on
  loop counters below 4 and on `/` and `%` by 4, which cannot overflow.
  The C operators `/` and `%` truncate towards zero: `Int.tdiv` and `Int.tmod`.
* A fixed-size C array `T a[N]` is a function `Fin N → T`. Indexing it with a
  C `int` that is outside `0 .. N-1` is undefined behaviour: `Outcome.undefined`.
* `PageTableEntry.page` is an owning pointer to a heap `Page` created by
  `initialize_page_table`; the pointee is embedded by value. `Frame.page` is a
  non-owning pointer that the program never dereferences; it is embedded as an
  optional address (`none` is `NULL`).
* `malloc` is a parameter: for each request it yields `none` (`NULL`) or the
  fresh block, whose content is indeterminate until the program writes it.
* A run is observed through a list of `Msg` values: the lines that the
  program prints, in order, and an event for every entry into
  `translate_address`, so that the place of a call in a run can be stated.
-/

namespace Lab08

/-! ## Constants (`#define`s) -/

/-- Page size in bytes (`TAMANHO_PAGINA`). -/
abbrev TAMANHO_PAGINA : Int := 4

/-- Number of pages of a virtual address space (`NUM_PAGES`). -/
abbrev NUM_PAGES : Nat := 4

/-- Number of frames of the physical memory (`NUM_FRAMES`). -/
abbrev NUM_FRAMES : Nat := 2

/-- Number of simulated processes (`NUM_PROCESSES`). -/
abbrev NUM_PROCESSES : Nat := 4

/-- The status `EXIT_FAILURE` of `<stdlib.h>`; the header is not part of the
repository, the value is the one of the common C libraries. -/
abbrev EXIT_FAILURE : Int := 1

/-- Smallest value of an `int` (32 bits). -/
abbrev INT_MIN : Int := -2147483648

/-- Largest value of an `int` (32 bits). -/
abbrev INT_MAX : Int := 2147483647

/-- The `int` that the arithmetic result `x` leaves: `x` reduced modulo `2^32`
into `INT_MIN .. INT_MAX`. -/
def wrap_int (x : Int) : Int :=
  (x + 2147483648) % 4294967296 - 2147483648

/-! ## Data model -/

/-- A virtual page (`Page`). -/
structure Page where
  page_number : Int
  is_loaded : Bool
deriving DecidableEq, Repr

/-- A frame of the physical memory (`Frame`); `page` is a non-owning pointer. -/
structure Frame where
  frame_number : Int
  page : Option Nat
  is_free : Bool
deriving DecidableEq, Repr

/-- An entry of a page table (`PageTableEntry`); `page` is the owned page. -/
structure PageTableEntry where
  page : Page
  frame_number : Int
  valid : Bool
deriving DecidableEq, Repr

/-- A page table (`PageTable`): `NUM_PAGES` entries. -/
structure PageTable where
  entries : Fin NUM_PAGES → PageTableEntry

/-- The physical memory (`PhysicalMemory`): `NUM_FRAMES` frames. -/
structure PhysicalMemory where
  frames : Fin NUM_FRAMES → Frame

/-- A process (`Processo`); `enderecos` points to a block of `NUM_PAGES` ints
(`none` is `NULL`). -/
structure Processo where
  pid : Int
  enderecos : Option (Fin NUM_PAGES → Int)
  num_enderecos : Int

/-! ## Observable behaviour -/

/-- What is observed of a run: the lines the program can print, and the entry
into `translate_address`. -/
inductive Msg where
  /-- The line of `perror` in `initialize_page_table` (allocation failure). -/
  | erro_alocar_pagina
  /-- The line `Erro: Número da página inválido.` -/
  | pagina_invalida
  /-- The line `Erro: Página %d não encontrada na tabela de páginas (page fault).` -/
  | page_fault (page_number : Int)
  /-- The header `Processo %d:` -/
  | processo (pid : Int)
  /-- The line `Endereço físico para %d: %d` -/
  | endereco_fisico (virtual_address physical_address : Int)
  /-- The empty line that closes the report of a process. -/
  | linha_em_branco
  /-- Not a line: `translate_address` has been entered with this address. -/
  | translate_address_called (virtual_address : Int)
deriving DecidableEq, Repr

/-- How the execution of a piece of the program ends: it returns a value, it
calls `exit`, or it runs into undefined behaviour. `out` is what was observed
up to there. -/
inductive Outcome (α : Type) where
  | ret (value : α) (out : List Msg)
  | exit (status : Int) (out : List Msg)
  | undefined
deriving DecidableEq, Repr

/-- The outcome `x`, preceded by the lines `out` printed before it. -/
def Outcome.prepend {β : Type} (out : List Msg) (x : Outcome β) : Outcome β :=
  match x with
  | .ret w out2 => .ret w (out ++ out2)
  | .exit s out2 => .exit s (out ++ out2)
  | .undefined => .undefined

/-- Sequencing: run `k` on the value returned by `x`; what was observed of `x`
comes first in what is observed of the whole. Every call that the program
makes is sequenced this way. -/
def Outcome.bind {α β : Type} (x : Outcome α) (k : α → Outcome β) : Outcome β :=
  match x with
  | .ret v out => (k v).prepend out
  | .exit s out => .exit s out
  | .undefined => .undefined

/-- The outcome `x` with the function `f` applied to the value returned. -/
def Outcome.map {α β : Type} (f : α → β) (x : Outcome α) : Outcome β :=
  match x with
  | .ret v out => .ret (f v) out
  | .exit s out => .exit s out
  | .undefined => .undefined

/-- The slot of an `N`-element array that the C index `i` designates, if any. -/
def slot? (n : Nat) (i : Int) : Option (Fin n) :=
  if h : 0 ≤ i ∧ i < (n : Int) then some ⟨i.toNat, by omega⟩ else none

/-! ## Initialisation -/

/-- Function `initialize_page_table`: for each slot, allocate a page and fill the entry.
`malloc i` is the result of the allocation made for slot `i`. The field
`is_loaded` of the new page is not written by the source. -/
def initialize_page_table (malloc : Fin NUM_PAGES → Option Page) (page_table : PageTable) :
    Outcome PageTable :=
  (List.finRange NUM_PAGES).foldl
    (fun acc i => acc.bind fun t =>
      match malloc i with
      | none => .exit EXIT_FAILURE [Msg.erro_alocar_pagina]
      | some block =>
        .ret { entries := Function.update t.entries i
                { page := { block with page_number := ((i : Nat) : Int) },
                  frame_number := -1,
                  valid := false } } [])
    (.ret page_table [])

/-- Function `initialize_physical_memory`: every frame gets its number, no page, free. -/
def initialize_physical_memory (phy_memory : PhysicalMemory) : PhysicalMemory :=
  (List.finRange NUM_FRAMES).foldl
    (fun m i => { frames := Function.update m.frames i
                    { frame_number := ((i : Nat) : Int), page := none, is_free := true } })
    phy_memory

/-! ## Memory management -/

/-- Function `map_page_to_frame`: the guard rejects `page_number >= NUM_PAGES` only;
the entry is then written through `entries[page_number]`. -/
def map_page_to_frame (page_table : PageTable) (page_number frame_number : Int) :
    Outcome PageTable :=
  if page_number ≥ (NUM_PAGES : Int) then
    .ret page_table [Msg.pagina_invalida]
  else
    match slot? NUM_PAGES page_number with
    | none => .undefined
    | some i =>
      let entry := page_table.entries i
      .ret { entries := Function.update page_table.entries i
              { page := { entry.page with is_loaded := true },
                frame_number := frame_number,
                valid := true } } []

/-- The loop of `load_page` over the frames still to be scanned. -/
def load_page_scan (phy_memory : PhysicalMemory) (page : Option Nat) :
    List (Fin NUM_FRAMES) → PhysicalMemory × Bool
  | [] => (phy_memory, false)
  | i :: rest =>
    if (phy_memory.frames i).is_free then
      ({ frames := Function.update phy_memory.frames i
          { phy_memory.frames i with page := page, is_free := false } }, true)
    else load_page_scan phy_memory page rest

/-- Function `load_page`: scan the frames in ascending order, take the first free one. -/
def load_page (phy_memory : PhysicalMemory) (page : Option Nat) : PhysicalMemory × Bool :=
  load_page_scan phy_memory page (List.finRange NUM_FRAMES)

/-- Function `translate_address`: split the address, test
`page_number < NUM_PAGES` and then the flag `valid` of `entries[page_number]`;
the physical address is computed in `int`. The entry into the function is
recorded first. -/
def translate_address (page_table : PageTable) (virtual_address : Int) : Outcome Int :=
  Outcome.prepend [Msg.translate_address_called virtual_address]
    (let page_number := virtual_address.tdiv TAMANHO_PAGINA
     let offset := virtual_address.tmod TAMANHO_PAGINA
     if page_number < (NUM_PAGES : Int) then
       match slot? NUM_PAGES page_number with
       | none => .undefined
       | some i =>
         if (page_table.entries i).valid then
           .ret (wrap_int
             (wrap_int ((page_table.entries i).frame_number * TAMANHO_PAGINA) + offset)) []
         else
           .ret (-1) [Msg.page_fault page_number]
     else
       .ret (-1) [Msg.page_fault page_number])

/-- Function `translate_address` once more, this time with the table behind
the pointer `page_table` carried through the body as state: what a path
returns is the table as that path leaves it, next to the `int` returned. -/
def translate_address_st (page_table : PageTable) (virtual_address : Int) :
    Outcome (PageTable × Int) :=
  Outcome.prepend [Msg.translate_address_called virtual_address]
    (let page_number := virtual_address.tdiv TAMANHO_PAGINA
     let offset := virtual_address.tmod TAMANHO_PAGINA
     if page_number < (NUM_PAGES : Int) then
       match slot? NUM_PAGES page_number with
       | none => .undefined
       | some i =>
         if (page_table.entries i).valid then
           let frame_number := (page_table.entries i).frame_number
           .ret (page_table, wrap_int (wrap_int (frame_number * TAMANHO_PAGINA) + offset)) []
         else
           .ret (page_table, -1) [Msg.page_fault page_number]
     else
       .ret (page_table, -1) [Msg.page_fault page_number])

/-- What the allocator answers during a run: the block for the page of slot
`j` of process `i`, and the block for the addresses of process `i`. -/
structure Heap where
  page_block : Fin NUM_PROCESSES → Fin NUM_PAGES → Option Page
  enderecos_block : Fin NUM_PROCESSES → Option (Fin NUM_PAGES → Int)

/-- The automatic variables of `main`. -/
structure Locals where
  page_tables : Fin NUM_PROCESSES → PageTable
  physical_memory : PhysicalMemory
  processes : Fin NUM_PROCESSES → Processo

/-- Body of the inner loop of the setup phase, for page `j` of one process:
store the address `j * TAMANHO_PAGINA`, then map page `j` to frame `j` when
`j < NUM_FRAMES` and clear `valid` otherwise. -/
def main_map_step (j : Fin NUM_PAGES) (st : PageTable × Processo) :
    Outcome (PageTable × Processo) :=
  match st.2.enderecos with
  | none => .undefined
  | some block =>
    let proc : Processo :=
      { st.2 with enderecos := some (Function.update block j (((j : Nat) : Int) * TAMANHO_PAGINA)) }
    if ((j : Nat) : Int) < (NUM_FRAMES : Int) then
      (map_page_to_frame st.1 ((j : Nat) : Int) ((j : Nat) : Int)).bind fun t => .ret (t, proc) []
    else
      .ret ({ entries := Function.update st.1.entries j
                { st.1.entries j with valid := false } }, proc) []

/-- Body of the outer loop of the setup phase, for process `i`. -/
def main_setup_process (heap : Heap) (i : Fin NUM_PROCESSES) (s : Locals) : Outcome Locals :=
  (initialize_page_table (heap.page_block i) (s.page_tables i)).bind fun t =>
    let proc : Processo :=
      { pid := ((i : Nat) : Int) + 1,
        num_enderecos := (NUM_PAGES : Int),
        enderecos := heap.enderecos_block i }
    ((List.finRange NUM_PAGES).foldl
        (fun (acc : Outcome (PageTable × Processo)) j => acc.bind (main_map_step j))
        (.ret (t, proc) [])).bind fun st =>
      .ret { s with page_tables := Function.update s.page_tables i st.1,
                    processes := Function.update s.processes i st.2 } []

/-- Setup phase of `main`: the physical memory, then every process. -/
def main_setup (heap : Heap) (s : Locals) : Outcome Locals :=
  (List.finRange NUM_PROCESSES).foldl
    (fun (acc : Outcome Locals) i => acc.bind (main_setup_process heap i))
    (.ret { s with physical_memory := initialize_physical_memory s.physical_memory } [])

/-- Body of the inner loop of the translation phase: translate address `j` of
the process and print the physical address unless it is `-1`. -/
def main_translate_step (t : PageTable) (proc : Processo) (j : Nat) : Outcome Unit :=
  match proc.enderecos, slot? NUM_PAGES (j : Int) with
  | some block, some k =>
    (translate_address t (block k)).bind fun physical_address =>
      if physical_address ≠ -1 then
        .ret () [Msg.endereco_fisico (block k) physical_address]
      else
        .ret () []
  | _, _ => .undefined

/-- Body of the outer loop of the translation phase, for process `i`. -/
def main_report_process (s : Locals) (i : Fin NUM_PROCESSES) : Outcome Unit :=
  (Outcome.ret () [Msg.processo (s.processes i).pid]).bind fun _ =>
    ((List.range (s.processes i).num_enderecos.toNat).foldl
        (fun (acc : Outcome Unit) j =>
          acc.bind fun _ => main_translate_step (s.page_tables i) (s.processes i) j)
        (.ret () [])).bind fun _ =>
      .ret () [Msg.linha_em_branco]

/-- Translation phase of `main`. -/
def main_report (s : Locals) : Outcome Unit :=
  (List.finRange NUM_PROCESSES).foldl
    (fun (acc : Outcome Unit) i => acc.bind fun _ => main_report_process s i)
    (.ret () [])

/-- Function `main`: setup, translation, and the value returned. The calls of
`free` at the end have no effect on what is observed. -/
def main (heap : Heap) (locals : Locals) : Outcome Int :=
  (main_setup heap locals).bind fun s =>
    (main_report s).bind fun _ => .ret 0 []

/-- The call `map_page_to_frame(&page_tables[i], page_number, frame_number)`
in the state of `main`: it works on the table of process `i`. -/
def main_map_call (s : Locals) (i : Fin NUM_PROCESSES) (page_number frame_number : Int) :
    Outcome Locals :=
  (map_page_to_frame (s.page_tables i) page_number frame_number).bind fun t =>
    .ret { s with page_tables := Function.update s.page_tables i t } []

/-! ## Closed forms of the states the program builds

These are not part of the program: the theorems below show that the program
computes them. -/

/-- The entry of slot `j` after `initialize_page_table`, the allocated block
for that slot having the content `g j`. -/
def fresh_entry (g : Fin NUM_PAGES → Page) (j : Fin NUM_PAGES) : PageTableEntry :=
  { page := { page_number := ((j : Nat) : Int), is_loaded := (g j).is_loaded },
    frame_number := -1, valid := false }

/-- The entry of slot `j` of a process after the setup phase of `main`. -/
def driver_entry (g : Fin NUM_PAGES → Page) (j : Fin NUM_PAGES) : PageTableEntry :=
  if (j : Nat) < NUM_FRAMES then
    { page := { page_number := ((j : Nat) : Int), is_loaded := true },
      frame_number := ((j : Nat) : Int), valid := true }
  else fresh_entry g j

/-- The record of process `i` after the setup phase of `main`. -/
def driver_processo (i : Fin NUM_PROCESSES) : Processo :=
  { pid := ((i : Nat) : Int) + 1,
    num_enderecos := (NUM_PAGES : Int),
    enderecos := some fun j => ((j : Nat) : Int) * TAMANHO_PAGINA }

/-- The variables of `main` after the setup phase. -/
def driver_state (g : Fin NUM_PROCESSES → Fin NUM_PAGES → Page) (m : PhysicalMemory) : Locals :=
  { page_tables := fun i => { entries := driver_entry (g i) },
    physical_memory := initialize_physical_memory m,
    processes := driver_processo }

/-! ## Reachable states and the invariant of the page table -/

/-- The pairs (page table, physical memory) that `initialize_page_table` and
`initialize_physical_memory` produce and that calls of `map_page_to_frame`
and `load_page` lead to. -/
inductive Reachable : PageTable → PhysicalMemory → Prop where
  | init (malloc : Fin NUM_PAGES → Option Page) (t0 t : PageTable) (m0 : PhysicalMemory)
      (out : List Msg) :
      initialize_page_table malloc t0 = Outcome.ret t out →
      Reachable t (initialize_physical_memory m0)
  | map (t t2 : PageTable) (m : PhysicalMemory) (page_number frame_number : Int)
      (out : List Msg) :
      Reachable t m →
      map_page_to_frame t page_number frame_number = Outcome.ret t2 out →
      Reachable t2 m
  | load (t : PageTable) (m : PhysicalMemory) (page : Option Nat) :
      Reachable t m →
      Reachable t (load_page m page).1

/-- The invariant of the page table in the words of the specification (§3): a
valid entry has a frame number that is the index of a frame of the physical
memory which is occupied, and its page is loaded. -/
def spec_invariant (t : PageTable) (m : PhysicalMemory) : Prop :=
  ∀ j : Fin NUM_PAGES, (t.entries j).valid = true →
    (∃ k : Fin NUM_FRAMES,
        (t.entries j).frame_number = ((k : Nat) : Int) ∧ (m.frames k).is_free = false)
    ∧ (t.entries j).page.is_loaded = true

/-! ## Executions -/

/-- One operation of the program on a state (page table, physical memory): a
call of `load_page`, a call of `map_page_to_frame` that returns, or a call of
`translate_address`. Only `load_page` receives the physical memory. -/
inductive Step : PageTable × PhysicalMemory → PageTable × PhysicalMemory → Prop where
  | load (t : PageTable) (m : PhysicalMemory) (page : Option Nat) :
      Step (t, m) (t, (load_page m page).1)
  | map (t t2 : PageTable) (m : PhysicalMemory) (page_number frame_number : Int)
      (out : List Msg) :
      map_page_to_frame t page_number frame_number = Outcome.ret t2 out →
      Step (t, m) (t2, m)
  | translate (t t2 : PageTable) (m : PhysicalMemory) (virtual_address r : Int)
      (out : List Msg) :
      translate_address_st t virtual_address = Outcome.ret (t2, r) out →
      Step (t, m) (t2, m)

/-- The calls `load_page(m, page)` for the pages of a list, one after the
other: the memory left by the last call and the value each call returned. -/
def load_pages (m : PhysicalMemory) : List (Option Nat) → PhysicalMemory × List Bool
  | [] => (m, [])
  | page :: rest =>
    let r := load_page m page
    let rs := load_pages r.1 rest
    (rs.1, r.2 :: rs.2)

/-- The number of free frames of a physical memory. -/
def free_count (m : PhysicalMemory) : Nat :=
  (List.finRange NUM_FRAMES).countP fun k => (m.frames k).is_free

/-! ## Sample inputs -/

/-- An allocator that always succeeds and hands out blocks with stale content. -/
def sample_heap : Heap :=
  { page_block := fun _ _ => some { page_number := 77, is_loaded := true },
    enderecos_block := fun _ => some fun _ => 99 }

/-- Some initial content of the variables of `main`. -/
def sample_locals : Locals :=
  { page_tables := fun _ =>
      { entries := fun _ => { page := { page_number := 5, is_loaded := true },
                              frame_number := 3, valid := true } },
    physical_memory :=
      { frames := fun _ => { frame_number := 9, page := some 1, is_free := false } },
    processes := fun _ => { pid := 0, enderecos := none, num_enderecos := 0 } }

/-- A physical memory whose frame 0 is occupied and whose frame 1 is free. -/
def sample_memory : PhysicalMemory :=
  { frames := fun k =>
      { frame_number := ((k : Nat) : Int), page := if (k : Nat) = 0 then some 3 else none,
        is_free := decide ((k : Nat) = 1) } }

/-- A physical memory without free frame. -/
def full_memory : PhysicalMemory :=
  { frames := fun k => { frame_number := ((k : Nat) : Int), page := some 6, is_free := false } }

/-- An allocator that fails on the page of slot 2 of the second process and
succeeds before that. -/
def failing_heap : Heap :=
  { page_block := fun i j =>
      if (i : Nat) = 1 ∧ (j : Nat) = 2 then none
      else some { page_number := 77, is_loaded := true },
    enderecos_block := fun _ => some fun _ => 99 }

/-- The page table that `main` builds for a process: pages 0 and 1 mapped to
the frames 0 and 1, pages 2 and 3 not mapped. -/
def sample_table : PageTable :=
  { entries := driver_entry fun _ => { page_number := 77, is_loaded := false } }

/-! ## Basic facts -/

theorem Outcome.ret_bind {α β : Type} (v : α) (out : List Msg) (k : α → Outcome β) :
    (Outcome.ret v out).bind k = (k v).prepend out := rfl

theorem Outcome.exit_bind {α β : Type} (st : Int) (out : List Msg) (k : α → Outcome β) :
    (Outcome.exit st out : Outcome α).bind k = Outcome.exit st out := rfl

theorem Outcome.undefined_bind {α β : Type} (k : α → Outcome β) :
    (Outcome.undefined : Outcome α).bind k = Outcome.undefined := rfl

theorem Outcome.prepend_ret {β : Type} (out out2 : List Msg) (w : β) :
    (Outcome.ret w out2).prepend out = Outcome.ret w (out ++ out2) := rfl

theorem Outcome.prepend_exit {β : Type} (out out2 : List Msg) (st : Int) :
    (Outcome.exit st out2 : Outcome β).prepend out = Outcome.exit st (out ++ out2) := rfl

theorem Outcome.prepend_undefined {β : Type} (out : List Msg) :
    (Outcome.undefined : Outcome β).prepend out = Outcome.undefined := rfl

theorem finRange_pages : List.finRange NUM_PAGES = [0, 1, 2, 3] := by decide

theorem finRange_frames : List.finRange NUM_FRAMES = [0, 1] := by decide

theorem slot?_of_lt (n : Nat) (i : Nat) (h : i < n) : slot? n (i : Int) = some ⟨i, h⟩ := by
  unfold slot?
  have h2 : 0 ≤ (i : Int) ∧ (i : Int) < (n : Int) := ⟨by omega, by omega⟩
  rw [dif_pos h2]
  simp

/-- For a non-negative address the truncating operators of C agree with the
mathematical quotient and remainder. -/
theorem split_nonneg (a : Int) (ha : 0 ≤ a) :
    a.tdiv TAMANHO_PAGINA = a / TAMANHO_PAGINA ∧ a.tmod TAMANHO_PAGINA = a % TAMANHO_PAGINA :=
  ⟨Int.tdiv_eq_ediv ha (by decide), Int.tmod_eq_emod ha (by decide)⟩

/-! ## Arithmetic in `int` -/

theorem wrap_int_in_range (x : Int) (h1 : INT_MIN ≤ x) (h2 : x ≤ INT_MAX) : wrap_int x = x := by
  have e1 : INT_MIN = -2147483648 := rfl
  have e2 : INT_MAX = 2147483647 := rfl
  unfold wrap_int
  omega

theorem wrap_int_add (x y : Int) : wrap_int (wrap_int x + y) = wrap_int (x + y) := by
  unfold wrap_int
  omega

/-! ## Address translation -/

/-- On a non-negative address whose page is in range and valid,
`translate_address` returns the physical address computed in `int`. -/
theorem translate_address_at_valid (page_table : PageTable) (a : Int) (p : Fin NUM_PAGES)
    (ha : 0 ≤ a) (hp : a / TAMANHO_PAGINA = ((p : Nat) : Int))
    (hv : (page_table.entries p).valid = true) :
    translate_address page_table a
      = Outcome.ret (wrap_int ((page_table.entries p).frame_number * TAMANHO_PAGINA
          + a % TAMANHO_PAGINA)) [Msg.translate_address_called a] := by
  obtain ⟨hd, hm⟩ := split_nonneg a ha
  have hs : slot? NUM_PAGES (a / TAMANHO_PAGINA) = some p := by
    rw [hp]; exact slot?_of_lt _ _ p.isLt
  have hlt : a / TAMANHO_PAGINA < (NUM_PAGES : Int) := by
    rw [hp]; have := p.isLt; omega
  unfold translate_address
  simp only [hd, hm, hs, if_pos hv, if_pos hlt, Outcome.prepend, wrap_int_add, List.append_nil]

/-- On a non-negative address whose page is out of range, or in range and not
valid, `translate_address` reports the page fault and returns `-1`. -/
theorem translate_address_at_fault (page_table : PageTable) (a : Int) (ha : 0 ≤ a)
    (h : (NUM_PAGES : Int) ≤ a / TAMANHO_PAGINA
      ∨ ∃ p : Fin NUM_PAGES, a / TAMANHO_PAGINA = ((p : Nat) : Int)
          ∧ (page_table.entries p).valid = false) :
    translate_address page_table a
      = Outcome.ret (-1) [Msg.translate_address_called a,
          Msg.page_fault (a / TAMANHO_PAGINA)] := by
  obtain ⟨hd, _⟩ := split_nonneg a ha
  unfold translate_address
  rcases h with h | ⟨p, hp, hv⟩
  · have hge : ¬ a / TAMANHO_PAGINA < (NUM_PAGES : Int) := by omega
    simp only [hd, if_neg hge, Outcome.prepend]
    rfl
  · have hs : slot? NUM_PAGES (a / TAMANHO_PAGINA) = some p := by
      rw [hp]; exact slot?_of_lt _ _ p.isLt
    have hlt : a / TAMANHO_PAGINA < (NUM_PAGES : Int) := by
      rw [hp]; have := p.isLt; omega
    have hnv : ¬ (page_table.entries p).valid = true := by
      rw [hv]; decide
    simp only [hd, hs, if_neg hnv, if_pos hlt, Outcome.prepend]
    rfl

theorem translate_address_nonneg (page_table : PageTable) (a : Int) (ha : 0 ≤ a) :
    (∃ p : Fin NUM_PAGES, a / TAMANHO_PAGINA = ((p : Nat) : Int)
        ∧ (page_table.entries p).valid = true
        ∧ translate_address page_table a
            = Outcome.ret (wrap_int ((page_table.entries p).frame_number * TAMANHO_PAGINA
                + a % TAMANHO_PAGINA)) [Msg.translate_address_called a])
    ∨ translate_address page_table a
        = Outcome.ret (-1) [Msg.translate_address_called a,
            Msg.page_fault (a / TAMANHO_PAGINA)] := by
  by_cases hlt : a / TAMANHO_PAGINA < (NUM_PAGES : Int)
  · have h0 : 0 ≤ a / TAMANHO_PAGINA := Int.ediv_nonneg ha (by decide)
    have hi : (a / TAMANHO_PAGINA).toNat < NUM_PAGES := by omega
    have hp : a / TAMANHO_PAGINA
        = (((⟨(a / TAMANHO_PAGINA).toNat, hi⟩ : Fin NUM_PAGES) : Nat) : Int) := by
      simp [Int.toNat_of_nonneg h0]
    cases hv : (page_table.entries ⟨(a / TAMANHO_PAGINA).toNat, hi⟩).valid
    · exact Or.inr (translate_address_at_fault page_table a ha (Or.inr ⟨_, hp, hv⟩))
    · exact Or.inl ⟨_, hp, hv, translate_address_at_valid page_table a _ ha hp hv⟩
  · exact Or.inr (translate_address_at_fault page_table a ha (Or.inl (by omega)))

/-- C1 (counterexample): page 0 of `sample_table` mapped to frame 600000000 by
`map_page_to_frame`; address 0 has page number 0, in range and valid, and
`translate_address` returns `-1894967296`, not
`600000000 * 4 + 0 = 2400000000`. -/
theorem translate_address_overflow_counterexample :
    ∃ t, map_page_to_frame sample_table 0 600000000 = Outcome.ret t []
      ∧ (0 : Int) / TAMANHO_PAGINA = (((0 : Fin NUM_PAGES) : Nat) : Int)
      ∧ (t.entries 0).valid = true
      ∧ (t.entries 0).frame_number * TAMANHO_PAGINA + 0 % TAMANHO_PAGINA = 2400000000
      ∧ translate_address t 0 = Outcome.ret (-1894967296) [Msg.translate_address_called 0] :=
  ⟨_, rfl, rfl, rfl, rfl, rfl⟩

/-- C1 (amended): for a non-negative address `a` whose page number
`p = a / PAGE_SIZE` is below `PAGE_COUNT`, whose entry `p` is valid and for
which `entries[p].frame_number * PAGE_SIZE + a % PAGE_SIZE` lies in the range
of `int`, `translate_address` returns exactly that number (and prints
nothing), the offset `a % PAGE_SIZE` being in `0 .. PAGE_SIZE - 1`. -/
theorem translate_address_valid (page_table : PageTable) (a : Int) (p : Fin NUM_PAGES)
    (ha : 0 ≤ a) (hp : a / TAMANHO_PAGINA = ((p : Nat) : Int))
    (hv : (page_table.entries p).valid = true)
    (hlo : INT_MIN ≤ (page_table.entries p).frame_number * TAMANHO_PAGINA + a % TAMANHO_PAGINA)
    (hhi : (page_table.entries p).frame_number * TAMANHO_PAGINA + a % TAMANHO_PAGINA ≤ INT_MAX) :
    translate_address page_table a
        = Outcome.ret ((page_table.entries p).frame_number * TAMANHO_PAGINA
            + a % TAMANHO_PAGINA) [Msg.translate_address_called a]
      ∧ 0 ≤ a % TAMANHO_PAGINA ∧ a % TAMANHO_PAGINA < TAMANHO_PAGINA := by
  refine ⟨?_, Int.emod_nonneg a (by decide), Int.emod_lt_of_pos a (by decide)⟩
  rw [translate_address_at_valid page_table a p ha hp hv, wrap_int_in_range _ hlo hhi]

/-- Witness of C1: page 1 mapped to frame 0, address 6 translates to 2. -/
theorem translate_address_valid_witness :
    translate_address
        { entries := fun _ => { page := { page_number := 0, is_loaded := true },
                                frame_number := 0, valid := true } } 6
      = Outcome.ret ((0 : Int) * TAMANHO_PAGINA + 6 % TAMANHO_PAGINA)
          [Msg.translate_address_called 6]
      ∧ 0 ≤ (6 : Int) % TAMANHO_PAGINA ∧ (6 : Int) % TAMANHO_PAGINA < TAMANHO_PAGINA :=
  translate_address_valid
    { entries := fun _ => { page := { page_number := 0, is_loaded := true },
                            frame_number := 0, valid := true } } 6 1
    (by decide) (by decide) rfl (by decide) (by decide)

/-- C2 (failing input): at the virtual address `-4` the page number is `-1`;
it passes the test `page_number < NUM_PAGES`, and the entry is then read at
index `-1`, outside the table, instead of a page fault being reported. -/
theorem translate_address_negative_page (page_table : PageTable) :
    translate_address page_table (-4) = Outcome.undefined := by
  unfold translate_address
  rfl

/-- C3: for a non-negative address whose page number is at least `PAGE_COUNT`,
or is in range with an entry that is not valid, `translate_address` prints
the page fault for that page number and returns `-1`. -/
theorem translate_address_fault (page_table : PageTable) (a : Int) (ha : 0 ≤ a)
    (h : (NUM_PAGES : Int) ≤ a / TAMANHO_PAGINA
      ∨ ∃ p : Fin NUM_PAGES, a / TAMANHO_PAGINA = ((p : Nat) : Int)
          ∧ (page_table.entries p).valid = false) :
    translate_address page_table a
      = Outcome.ret (-1) [Msg.translate_address_called a,
          Msg.page_fault (a / TAMANHO_PAGINA)] := by
  exact translate_address_at_fault page_table a ha h

/-- Witness of C3: in a table without valid entry, address 9 (page 2) faults. -/
theorem translate_address_fault_witness :
    translate_address
        { entries := fun _ => { page := { page_number := 0, is_loaded := false },
                                frame_number := 7, valid := false } } 9
      = Outcome.ret (-1) [Msg.translate_address_called 9,
          Msg.page_fault (9 / TAMANHO_PAGINA)] :=
  translate_address_fault
    { entries := fun _ => { page := { page_number := 0, is_loaded := false },
                            frame_number := 7, valid := false } } 9
    (by decide) (Or.inr ⟨2, by decide, rfl⟩)

/-! ## The setup phase of the driver computes `driver_state` -/

theorem finRange_processes : List.finRange NUM_PROCESSES = [0, 1, 2, 3] := by decide

theorem initialize_page_table_ok (malloc : Fin NUM_PAGES → Option Page)
    (g : Fin NUM_PAGES → Page) (t : PageTable) (h : ∀ j, malloc j = some (g j)) :
    initialize_page_table malloc t = Outcome.ret { entries := fresh_entry g } [] := by
  unfold initialize_page_table
  rw [finRange_pages]
  simp only [List.foldl, Outcome.ret_bind, Outcome.prepend_ret, h, List.append_nil]
  congr 2
  funext j
  fin_cases j <;> rfl

theorem main_map_loop_ok (g : Fin NUM_PAGES → Page) (b : Fin NUM_PAGES → Int) (pid n : Int) :
    (List.finRange NUM_PAGES).foldl
        (fun (acc : Outcome (PageTable × Processo)) j => acc.bind (main_map_step j))
        (.ret ({ entries := fresh_entry g },
               { pid := pid, num_enderecos := n, enderecos := some b }) [])
      = Outcome.ret ({ entries := driver_entry g },
          { pid := pid, num_enderecos := n,
            enderecos := some fun j => ((j : Nat) : Int) * TAMANHO_PAGINA }) [] := by
  rw [finRange_pages]
  have h3 : ((3 : Fin NUM_PAGES) : Nat) = 3 := rfl
  simp [List.foldl, Outcome.ret_bind, Outcome.prepend_ret, main_map_step, map_page_to_frame,
    slot?, h3]
  constructor
  · funext j
    fin_cases j <;> rfl
  · funext j
    fin_cases j <;> rfl

theorem main_setup_process_ok (heap : Heap) (g : Fin NUM_PAGES → Page) (b : Fin NUM_PAGES → Int)
    (i : Fin NUM_PROCESSES) (s : Locals)
    (hp : ∀ j, heap.page_block i j = some (g j)) (hb : heap.enderecos_block i = some b) :
    main_setup_process heap i s
      = Outcome.ret
          { s with page_tables := Function.update s.page_tables i { entries := driver_entry g },
                   processes := Function.update s.processes i (driver_processo i) } [] := by
  unfold main_setup_process
  rw [initialize_page_table_ok _ g _ hp]
  simp only [Outcome.ret_bind, hb]
  rw [main_map_loop_ok]
  rfl

theorem main_setup_ok (heap : Heap) (g : Fin NUM_PROCESSES → Fin NUM_PAGES → Page)
    (b : Fin NUM_PROCESSES → Fin NUM_PAGES → Int) (locals : Locals)
    (hp : ∀ i j, heap.page_block i j = some (g i j))
    (hb : ∀ i, heap.enderecos_block i = some (b i)) :
    main_setup heap locals = Outcome.ret (driver_state g locals.physical_memory) [] := by
  unfold main_setup
  rw [finRange_processes]
  simp only [List.foldl, Outcome.ret_bind]
  rw [main_setup_process_ok heap (g 0) (b 0) 0 _ (hp 0) (hb 0)]
  simp only [Outcome.prepend_ret, Outcome.ret_bind]
  rw [main_setup_process_ok heap (g 1) (b 1) 1 _ (hp 1) (hb 1)]
  simp only [Outcome.prepend_ret, Outcome.ret_bind]
  rw [main_setup_process_ok heap (g 2) (b 2) 2 _ (hp 2) (hb 2)]
  simp only [Outcome.prepend_ret, Outcome.ret_bind]
  rw [main_setup_process_ok heap (g 3) (b 3) 3 _ (hp 3) (hb 3)]
  simp only [Outcome.prepend_ret, List.append_nil, driver_state]
  congr 2
  · funext i
    fin_cases i <;> rfl
  · funext i
    fin_cases i <;> rfl

/-! ## The driver -/

/-- C4: when every allocation succeeds, the setup phase of `main` returns, and
for every process the address sequence is `[0, 4, 8, 12]` and the translation
against the table built for that process gives `0 -> 0`, `4 -> 4`, a page
fault for page 2 at address 8 and a page fault for page 3 at address 12; the
whole run consists of exactly these four calls and their results for each of
the processes 1 to 4. -/
theorem driver_scenario (heap : Heap) (g : Fin NUM_PROCESSES → Fin NUM_PAGES → Page)
    (b : Fin NUM_PROCESSES → Fin NUM_PAGES → Int) (locals : Locals)
    (hp : ∀ i j, heap.page_block i j = some (g i j))
    (hb : ∀ i, heap.enderecos_block i = some (b i)) :
    (∃ s, main_setup heap locals = Outcome.ret s [] ∧
      ∀ i : Fin NUM_PROCESSES,
        (s.processes i).enderecos.map List.ofFn = some [0, 4, 8, 12]
        ∧ translate_address (s.page_tables i) 0
            = Outcome.ret 0 [Msg.translate_address_called 0]
        ∧ translate_address (s.page_tables i) 4
            = Outcome.ret 4 [Msg.translate_address_called 4]
        ∧ translate_address (s.page_tables i) 8
            = Outcome.ret (-1) [Msg.translate_address_called 8, Msg.page_fault 2]
        ∧ translate_address (s.page_tables i) 12
            = Outcome.ret (-1) [Msg.translate_address_called 12, Msg.page_fault 3])
    ∧ main heap locals = Outcome.ret 0
        (List.flatten (List.map
          (fun pid => [Msg.processo pid,
                       Msg.translate_address_called 0, Msg.endereco_fisico 0 0,
                       Msg.translate_address_called 4, Msg.endereco_fisico 4 4,
                       Msg.translate_address_called 8, Msg.page_fault 2,
                       Msg.translate_address_called 12, Msg.page_fault 3,
                       Msg.linha_em_branco])
          [1, 2, 3, 4])) := by
  have hs := main_setup_ok heap g b locals hp hb
  refine ⟨⟨_, hs, ?_⟩, ?_⟩
  · intro i
    refine ⟨rfl, rfl, rfl, rfl, rfl⟩
  · unfold main
    rw [hs]
    rfl

/-- Witness of C4: the run with `sample_heap` and `sample_locals`. -/
theorem driver_scenario_witness :
    (∃ s, main_setup sample_heap sample_locals = Outcome.ret s [] ∧
      ∀ i : Fin NUM_PROCESSES,
        (s.processes i).enderecos.map List.ofFn = some [0, 4, 8, 12]
        ∧ translate_address (s.page_tables i) 0
            = Outcome.ret 0 [Msg.translate_address_called 0]
        ∧ translate_address (s.page_tables i) 4
            = Outcome.ret 4 [Msg.translate_address_called 4]
        ∧ translate_address (s.page_tables i) 8
            = Outcome.ret (-1) [Msg.translate_address_called 8, Msg.page_fault 2]
        ∧ translate_address (s.page_tables i) 12
            = Outcome.ret (-1) [Msg.translate_address_called 12, Msg.page_fault 3])
    ∧ main sample_heap sample_locals = Outcome.ret 0
        (List.flatten (List.map
          (fun pid => [Msg.processo pid,
                       Msg.translate_address_called 0, Msg.endereco_fisico 0 0,
                       Msg.translate_address_called 4, Msg.endereco_fisico 4 4,
                       Msg.translate_address_called 8, Msg.page_fault 2,
                       Msg.translate_address_called 12, Msg.page_fault 3,
                       Msg.linha_em_branco])
          [1, 2, 3, 4])) :=
  driver_scenario sample_heap (fun _ _ => { page_number := 77, is_loaded := true })
    (fun _ _ => 99) sample_locals (fun _ _ => rfl) (fun _ => rfl)

/-- C5: when every allocation succeeds, the setup phase of `main` returns, and
in the page table of every process entry `j` is valid with `frame_number = j`
for `j < FRAME_COUNT`, and is not valid for `FRAME_COUNT <= j < PAGE_COUNT`. -/
theorem driver_mapping (heap : Heap) (g : Fin NUM_PROCESSES → Fin NUM_PAGES → Page)
    (b : Fin NUM_PROCESSES → Fin NUM_PAGES → Int) (locals : Locals)
    (hp : ∀ i j, heap.page_block i j = some (g i j))
    (hb : ∀ i, heap.enderecos_block i = some (b i)) :
    ∃ s, main_setup heap locals = Outcome.ret s [] ∧
      ∀ (i : Fin NUM_PROCESSES) (j : Fin NUM_PAGES),
        ((j : Nat) < NUM_FRAMES →
          ((s.page_tables i).entries j).valid = true
          ∧ ((s.page_tables i).entries j).frame_number = ((j : Nat) : Int))
        ∧ (NUM_FRAMES ≤ (j : Nat) → ((s.page_tables i).entries j).valid = false) := by
  refine ⟨_, main_setup_ok heap g b locals hp hb, ?_⟩
  intro i j
  constructor
  · intro hj
    simp [driver_state, driver_entry, hj]
  · intro hj
    have hn : ¬ (j : Nat) < NUM_FRAMES := by omega
    simp [driver_state, driver_entry, hn, fresh_entry]

/-- Witness of C5: the setup with `sample_heap` and `sample_locals`. -/
theorem driver_mapping_witness :
    ∃ s, main_setup sample_heap sample_locals = Outcome.ret s [] ∧
      ∀ (i : Fin NUM_PROCESSES) (j : Fin NUM_PAGES),
        ((j : Nat) < NUM_FRAMES →
          ((s.page_tables i).entries j).valid = true
          ∧ ((s.page_tables i).entries j).frame_number = ((j : Nat) : Int))
        ∧ (NUM_FRAMES ≤ (j : Nat) → ((s.page_tables i).entries j).valid = false) :=
  driver_mapping sample_heap (fun _ _ => { page_number := 77, is_loaded := true })
    (fun _ _ => 99) sample_locals (fun _ _ => rfl) (fun _ => rfl)

/-! ## Mapping a page to a frame -/

theorem map_page_to_frame_total (page_table : PageTable) (p f : Int)
    (h0 : 0 ≤ p) (h1 : p < (NUM_PAGES : Int)) :
    ∃ (i : Fin NUM_PAGES) (t : PageTable),
      ((i : Nat) : Int) = p
      ∧ map_page_to_frame page_table p f = Outcome.ret t []
      ∧ t.entries = Function.update page_table.entries i
          { page := { (page_table.entries i).page with is_loaded := true },
            frame_number := f, valid := true } := by
  have hi : p.toNat < NUM_PAGES := by omega
  have hs : slot? NUM_PAGES p = some ⟨p.toNat, hi⟩ := by
    unfold slot?
    rw [dif_pos ⟨h0, h1⟩]
  have hg : ¬ p ≥ (NUM_PAGES : Int) := by omega
  refine ⟨⟨p.toNat, hi⟩,
    { entries := Function.update page_table.entries ⟨p.toNat, hi⟩
        { page := { (page_table.entries ⟨p.toNat, hi⟩).page with is_loaded := true },
          frame_number := f, valid := true } },
    by simp [Int.toNat_of_nonneg h0], ?_, rfl⟩
  unfold map_page_to_frame
  rw [if_neg hg, hs]

/-- C6 (failing input): with `page_number = -1` the guard
`page_number >= NUM_PAGES` does not fire, no invalid-page error is printed
and the entry is written at index `-1`, outside the table. -/
theorem map_page_to_frame_negative_page (page_table : PageTable) (frame_number : Int) :
    map_page_to_frame page_table (-1) frame_number = Outcome.undefined := by
  unfold map_page_to_frame
  rfl

/-- C7: for `0 <= p < PAGE_COUNT` and any frame number `f`, `map_page_to_frame`
returns, printing nothing, the table in which entry `p` has
`frame_number = f`, `valid = true` and a page with `is_loaded = true` and the
page number it had, every other entry being as before. The frame number is
not compared with anything. -/
theorem map_page_to_frame_ok (page_table : PageTable) (p f : Int)
    (h0 : 0 ≤ p) (h1 : p < (NUM_PAGES : Int)) :
    ∃ (i : Fin NUM_PAGES) (t : PageTable),
      ((i : Nat) : Int) = p
      ∧ map_page_to_frame page_table p f = Outcome.ret t []
      ∧ (t.entries i).frame_number = f
      ∧ (t.entries i).valid = true
      ∧ (t.entries i).page.is_loaded = true
      ∧ (t.entries i).page.page_number = (page_table.entries i).page.page_number
      ∧ ∀ q : Fin NUM_PAGES, q ≠ i → t.entries q = page_table.entries q := by
  have hi : p.toNat < NUM_PAGES := by omega
  have hs : slot? NUM_PAGES p = some ⟨p.toNat, hi⟩ := by
    unfold slot?
    rw [dif_pos ⟨h0, h1⟩]
  have hg : ¬ p ≥ (NUM_PAGES : Int) := by omega
  refine ⟨⟨p.toNat, hi⟩,
    { entries := Function.update page_table.entries ⟨p.toNat, hi⟩
        { page := { (page_table.entries ⟨p.toNat, hi⟩).page with is_loaded := true },
          frame_number := f, valid := true } },
    by simp [Int.toNat_of_nonneg h0], ?_, ?_⟩
  · unfold map_page_to_frame
    rw [if_neg hg, hs]
  · refine ⟨by simp, by simp, by simp, by simp, ?_⟩
    intro q hq
    simp [Function.update, hq]

/-- Witness of C7: page 2 of the sample table is mapped to frame 40. -/
theorem map_page_to_frame_ok_witness :
    ∃ (i : Fin NUM_PAGES) (t : PageTable),
      ((i : Nat) : Int) = 2
      ∧ map_page_to_frame (sample_locals.page_tables 0) 2 40 = Outcome.ret t []
      ∧ (t.entries i).frame_number = 40
      ∧ (t.entries i).valid = true
      ∧ (t.entries i).page.is_loaded = true
      ∧ (t.entries i).page.page_number
          = ((sample_locals.page_tables 0).entries i).page.page_number
      ∧ ∀ q : Fin NUM_PAGES, q ≠ i →
          t.entries q = (sample_locals.page_tables 0).entries q :=
  map_page_to_frame_ok (sample_locals.page_tables 0) 2 40 (by decide) (by decide)

/-! ## Initialising a page table -/

/-- C8 (failing input): when the allocator hands out blocks whose byte for
`is_loaded` is set, `initialize_page_table` returns a table in which every
entry has `page_number` equal to its slot, `frame_number = -1` and
`valid = false`, but `is_loaded = true`: the field is never written. -/
theorem initialize_page_table_is_loaded (page_table : PageTable) :
    ∃ t, initialize_page_table (fun _ => some { page_number := 77, is_loaded := true })
          page_table = Outcome.ret t []
      ∧ ∀ i : Fin NUM_PAGES,
          (t.entries i).page.page_number = ((i : Nat) : Int)
          ∧ (t.entries i).frame_number = -1
          ∧ (t.entries i).valid = false
          ∧ (t.entries i).page.is_loaded = true :=
  ⟨_, initialize_page_table_ok _ (fun _ => { page_number := 77, is_loaded := true })
        page_table (fun _ => rfl),
    fun _ => ⟨rfl, rfl, rfl, rfl⟩⟩

/-! ## Frame allocation -/

theorem load_page_scan_first (phy_memory : PhysicalMemory) (page : Option Nat)
    (h : ∃ k, (phy_memory.frames k).is_free = true) :
    ∃ i : Fin NUM_FRAMES,
      (phy_memory.frames i).is_free = true
      ∧ (∀ k : Fin NUM_FRAMES, k < i → (phy_memory.frames k).is_free = false)
      ∧ (load_page phy_memory page).2 = true
      ∧ (load_page phy_memory page).1.frames i
          = { frame_number := (phy_memory.frames i).frame_number, page := page,
              is_free := false }
      ∧ ∀ k : Fin NUM_FRAMES, k ≠ i →
          (load_page phy_memory page).1.frames k = phy_memory.frames k := by
  unfold load_page
  rw [finRange_frames]
  by_cases h0 : (phy_memory.frames 0).is_free = true
  · refine ⟨0, h0, ?_, ?_, ?_, ?_⟩
    · intro k hk
      exact absurd hk (Fin.not_lt_zero k)
    · simp [load_page_scan, h0]
    · simp [load_page_scan, h0]
    · intro k hk
      simp [load_page_scan, h0, Function.update, hk]
  · have h1 : (phy_memory.frames 1).is_free = true := by
      obtain ⟨k, hk⟩ := h
      fin_cases k
      · exact absurd hk h0
      · exact hk
    refine ⟨1, h1, ?_, ?_, ?_, ?_⟩
    · intro k hk
      fin_cases k
      · simpa using h0
      · exact absurd hk (by decide)
    · simp [load_page_scan, h0, h1]
    · simp [load_page_scan, h0, h1]
    · intro k hk
      simp [load_page_scan, h0, h1, Function.update, hk]

/-- C10: if some frame is free, `load_page` returns `true`, and the memory it
leaves differs from the one it received only at the free frame `i` of
smallest index, which keeps its `frame_number`, is bound to the given page
and is no longer free; every other frame is unchanged. -/
theorem load_page_first_fit (phy_memory : PhysicalMemory) (page : Option Nat)
    (h : ∃ k, (phy_memory.frames k).is_free = true) :
    ∃ i : Fin NUM_FRAMES,
      (phy_memory.frames i).is_free = true
      ∧ (∀ k : Fin NUM_FRAMES, k < i → (phy_memory.frames k).is_free = false)
      ∧ (load_page phy_memory page).2 = true
      ∧ (load_page phy_memory page).1.frames i
          = { frame_number := (phy_memory.frames i).frame_number, page := page,
              is_free := false }
      ∧ ∀ k : Fin NUM_FRAMES, k ≠ i →
          (load_page phy_memory page).1.frames k = phy_memory.frames k := by
  unfold load_page
  rw [finRange_frames]
  by_cases h0 : (phy_memory.frames 0).is_free = true
  · refine ⟨0, h0, ?_, ?_, ?_, ?_⟩
    · intro k hk
      exact absurd hk (Fin.not_lt_zero k)
    · simp [load_page_scan, h0]
    · simp [load_page_scan, h0]
    · intro k hk
      simp [load_page_scan, h0, Function.update, hk]
  · have h1 : (phy_memory.frames 1).is_free = true := by
      obtain ⟨k, hk⟩ := h
      fin_cases k
      · exact absurd hk h0
      · exact hk
    refine ⟨1, h1, ?_, ?_, ?_, ?_⟩
    · intro k hk
      fin_cases k
      · simpa using h0
      · exact absurd hk (by decide)
    · simp [load_page_scan, h0, h1]
    · simp [load_page_scan, h0, h1]
    · intro k hk
      simp [load_page_scan, h0, h1, Function.update, hk]

/-- Witness of C10: frame 0 occupied, frame 1 free; frame 1 is taken. -/
theorem load_page_first_fit_witness :
    ∃ i : Fin NUM_FRAMES,
      (sample_memory.frames i).is_free = true
      ∧ (∀ k : Fin NUM_FRAMES, k < i → (sample_memory.frames k).is_free = false)
      ∧ (load_page sample_memory (some 8)).2 = true
      ∧ (load_page sample_memory (some 8)).1.frames i
          = { frame_number := (sample_memory.frames i).frame_number, page := some 8,
              is_free := false }
      ∧ ∀ k : Fin NUM_FRAMES, k ≠ i →
          (load_page sample_memory (some 8)).1.frames k = sample_memory.frames k :=
  load_page_first_fit sample_memory (some 8) ⟨1, rfl⟩

/-! ## The invariant of the page table -/

theorem initialize_page_table_ret (malloc : Fin NUM_PAGES → Option Page) (t0 t : PageTable)
    (out : List Msg) (h : initialize_page_table malloc t0 = Outcome.ret t out) :
    ∀ j, (t.entries j).valid = false := by
  have hm : ∀ j, malloc j = some ((malloc j).getD { page_number := 0, is_loaded := false }) := by
    unfold initialize_page_table at h
    rw [finRange_pages] at h
    simp only [List.foldl, Outcome.ret_bind] at h
    cases h0 : malloc 0 <;> cases h1 : malloc 1 <;> cases h2 : malloc 2 <;>
      cases h3 : malloc 3 <;>
      simp only [h0, h1, h2, h3, Outcome.prepend_ret, Outcome.prepend_exit, Outcome.ret_bind,
        Outcome.exit_bind] at h <;>
      first
        | (simp at h; done)
        | (intro j
           fin_cases j
           · show malloc 0 = some ((malloc 0).getD _)
             rw [h0]; rfl
           · show malloc 1 = some ((malloc 1).getD _)
             rw [h1]; rfl
           · show malloc 2 = some ((malloc 2).getD _)
             rw [h2]; rfl
           · show malloc 3 = some ((malloc 3).getD _)
             rw [h3]; rfl)
  rw [initialize_page_table_ok malloc _ t0 hm] at h
  intro j
  cases h
  rfl

theorem map_page_to_frame_keeps (t t2 : PageTable) (p f : Int) (out : List Msg)
    (h : map_page_to_frame t p f = Outcome.ret t2 out)
    (ht : ∀ j, (t.entries j).valid = true → (t.entries j).page.is_loaded = true) :
    ∀ j, (t2.entries j).valid = true → (t2.entries j).page.is_loaded = true := by
  unfold map_page_to_frame at h
  split at h
  · cases h
    exact ht
  · split at h
    · cases h
    · cases h
      intro j hj
      rename_i i _
      by_cases hji : j = i
      · subst hji
        simp
      · simp only [Function.update, hji, dite_false] at hj ⊢
        exact ht j hj

theorem driver_reachable (g : Fin NUM_PAGES → Page) (t0 : PageTable) (m : PhysicalMemory) :
    Reachable { entries := driver_entry g } (initialize_physical_memory m) := by
  have h0 := Reachable.init (fun j => some (g j)) t0 _ m []
    (initialize_page_table_ok _ g t0 (fun _ => rfl))
  have h1 := Reachable.map _ _ _ 0 0 [] h0 rfl
  have h2 := Reachable.map _ _ _ 1 1 [] h1 rfl
  have key : ∀ t : PageTable, Reachable t (initialize_physical_memory m) →
      t.entries = driver_entry g →
      Reachable { entries := driver_entry g } (initialize_physical_memory m) := by
    intro t ht he
    cases t
    subst he
    exact ht
  refine key _ h2 ?_
  funext j
  fin_cases j <;> rfl

theorem initialize_physical_memory_free (m : PhysicalMemory) (k : Fin NUM_FRAMES) :
    ((initialize_physical_memory m).frames k).is_free = true := by
  fin_cases k <;> rfl

/-- C9 (counterexample): the state that the setup phase of `main` builds for
process 1 is reachable, its entry 0 is valid with frame number 0, and frame 0
of the physical memory is free: the invariant of the specification fails.
Mapping page 0 to frame 7 from there gives a reachable state with a valid
entry whose frame number is not the index of any frame. -/
theorem spec_invariant_counterexample :
    ∃ s, main_setup sample_heap sample_locals = Outcome.ret s []
      ∧ Reachable (s.page_tables 0) s.physical_memory
      ∧ ((s.page_tables 0).entries 0).valid = true
      ∧ ((s.page_tables 0).entries 0).frame_number = 0
      ∧ (s.physical_memory.frames 0).is_free = true
      ∧ ¬ spec_invariant (s.page_tables 0) s.physical_memory
      ∧ ∃ t, map_page_to_frame (s.page_tables 0) 0 7 = Outcome.ret t []
          ∧ Reachable t s.physical_memory
          ∧ (t.entries 0).valid = true
          ∧ (t.entries 0).frame_number = 7
          ∧ ¬ spec_invariant t s.physical_memory := by
  have hr := driver_reachable (fun _ => { page_number := 77, is_loaded := true })
    (sample_locals.page_tables 0) sample_locals.physical_memory
  have hfree : ∀ (t : PageTable), (t.entries 0).valid = true →
      ¬ spec_invariant t (initialize_physical_memory sample_locals.physical_memory) := by
    intro t hv hinv
    obtain ⟨⟨k, _, hk⟩, _⟩ := hinv 0 hv
    rw [initialize_physical_memory_free] at hk
    exact absurd hk (by decide)
  refine ⟨_, main_setup_ok sample_heap (fun _ _ => { page_number := 77, is_loaded := true })
      (fun _ _ => 99) sample_locals (fun _ _ => rfl) (fun _ => rfl),
    hr, rfl, rfl, rfl, hfree _ rfl, _, rfl, Reachable.map _ _ _ 0 7 [] hr rfl, rfl, rfl,
    hfree _ rfl⟩

/-- C9 (amended): in every state reachable from `initialize_page_table` and
`initialize_physical_memory` by calls of `map_page_to_frame` and `load_page`,
every entry with `valid == true` has a page with `is_loaded == true`. -/
theorem reachable_valid_is_loaded (t : PageTable) (m : PhysicalMemory) (h : Reachable t m)
    (j : Fin NUM_PAGES) (hv : (t.entries j).valid = true) :
    (t.entries j).page.is_loaded = true := by
  induction h generalizing j with
  | init malloc t0 t m0 out hi =>
    have := initialize_page_table_ret malloc t0 t out hi j
    rw [this] at hv
    exact absurd hv (by decide)
  | map t t2 m p f out _ hm ih =>
    exact map_page_to_frame_keeps t t2 p f out hm ih j hv
  | load t m page _ ih =>
    exact ih j hv

/-- Witness of C9: the table that `main` builds from blocks with stale
content is reachable, its entry 0 is valid, and the page of entry 0 is loaded. -/
theorem reachable_valid_is_loaded_witness :
    Reachable { entries := driver_entry fun _ => { page_number := 77, is_loaded := false } }
        (initialize_physical_memory sample_memory)
      ∧ (driver_entry (fun _ => { page_number := 77, is_loaded := false }) 0).valid = true
      ∧ (driver_entry (fun _ => { page_number := 77, is_loaded := false }) 0).page.is_loaded
          = true :=
  ⟨driver_reachable _ (sample_locals.page_tables 0) sample_memory, rfl,
    reachable_valid_is_loaded { entries := driver_entry fun _ => { page_number := 77, is_loaded := false } }
      (initialize_physical_memory sample_memory)
      (driver_reachable _ (sample_locals.page_tables 0) sample_memory) 0 rfl⟩

/-! ## Frame exhaustion -/

theorem load_page_full (phy_memory : PhysicalMemory) (page : Option Nat)
    (h : ∀ k, (phy_memory.frames k).is_free = false) :
    load_page phy_memory page = (phy_memory, false) := by
  unfold load_page
  rw [finRange_frames]
  simp [load_page_scan, h]

theorem load_page_false (phy_memory : PhysicalMemory) (page : Option Nat)
    (h : (load_page phy_memory page).2 = false) :
    ∀ k, (phy_memory.frames k).is_free = false := by
  unfold load_page at h
  rw [finRange_frames] at h
  intro k
  by_cases h0 : (phy_memory.frames 0).is_free = true
  · simp [load_page_scan, h0] at h
  · by_cases h1 : (phy_memory.frames 1).is_free = true
    · simp [load_page_scan, h0, h1] at h
    · fin_cases k
      · simpa using h0
      · simpa using h1

/-- C11: `load_page` returns `false` exactly when no frame is free, and when no
frame is free it returns the physical memory it received, unchanged. -/
theorem load_page_exhausted (phy_memory : PhysicalMemory) (page : Option Nat) :
    ((load_page phy_memory page).2 = false ↔ ∀ k, (phy_memory.frames k).is_free = false)
    ∧ ((load_page phy_memory page).2 = false → (load_page phy_memory page).1 = phy_memory) := by
  refine ⟨⟨load_page_false phy_memory page, fun h => ?_⟩, fun h => ?_⟩
  · rw [load_page_full phy_memory page h]
  · rw [load_page_full phy_memory page (load_page_false phy_memory page h)]

/-- Witness of C11: on `full_memory` the call fails and returns `full_memory`. -/
theorem load_page_exhausted_witness :
    (load_page full_memory (some 5)).2 = false ∧ (load_page full_memory (some 5)).1 = full_memory :=
  ⟨rfl, (load_page_exhausted full_memory (some 5)).2 rfl⟩

/-! ## Translating twice -/

theorem map_page_to_frame_returns (page_table : PageTable) (p f : Int) (h0 : 0 ≤ p) :
    ∃ t out, map_page_to_frame page_table p f = Outcome.ret t out := by
  by_cases hg : p ≥ (NUM_PAGES : Int)
  · exact ⟨_, _, if_pos hg⟩
  · obtain ⟨_, t, _, h, _⟩ := map_page_to_frame_total page_table p f h0 (by omega)
    exact ⟨t, [], h⟩

/-- C13 (failing input): in the state of `main`, the call of `map_page_to_frame`
on the table of process 2 with `page_number = -1` writes through index `-1`
of that table, outside it: the behaviour is undefined, so nothing keeps the
table of process 1 as it was. For every page number that is not negative the
call returns and leaves the table of every other process, and with it every
translation against that table, unchanged. -/
theorem map_call_isolation :
    (∀ (s : Locals) (f : Int), main_map_call s 1 (-1) f = Outcome.undefined)
    ∧ (∀ (s : Locals) (A B : Fin NUM_PROCESSES) (p f : Int), A ≠ B → 0 ≤ p →
        ∃ s2 out, main_map_call s A p f = Outcome.ret s2 out
          ∧ s2.page_tables B = s.page_tables B
          ∧ ∀ a, translate_address (s2.page_tables B) a
                  = translate_address (s.page_tables B) a) := by
  constructor
  · intro s f
    unfold main_map_call map_page_to_frame
    rfl
  · intro s A B p f hAB h0
    obtain ⟨t, out, ht⟩ := map_page_to_frame_returns (s.page_tables A) p f h0
    have hB : Function.update s.page_tables A t B = s.page_tables B :=
      Function.update_noteq (Ne.symm hAB) t s.page_tables
    refine ⟨{ s with page_tables := Function.update s.page_tables A t }, out ++ [], ?_, hB, ?_⟩
    · unfold main_map_call
      rw [ht]
      rfl
    · intro a
      show translate_address (Function.update s.page_tables A t B) a = _
      rw [hB]

/-! ## Allocation failure -/

theorem initialize_page_table_fail (malloc : Fin NUM_PAGES → Option Page)
    (g : Fin NUM_PAGES → Page) (t : PageTable) (j0 : Fin NUM_PAGES)
    (hp : ∀ j, j < j0 → malloc j = some (g j)) (hf : malloc j0 = none) :
    initialize_page_table malloc t = Outcome.exit EXIT_FAILURE [Msg.erro_alocar_pagina] := by
  unfold initialize_page_table
  rw [finRange_pages]
  fin_cases j0
  · have hf0 : malloc 0 = none := hf
    simp only [List.foldl, Outcome.ret_bind, Outcome.prepend_ret, Outcome.prepend_exit,
      Outcome.exit_bind, hf0, List.append_nil, List.nil_append]
  · have h0 : malloc 0 = some (g 0) := hp 0 (by decide)
    have hf1 : malloc 1 = none := hf
    simp only [List.foldl, Outcome.ret_bind, Outcome.prepend_ret, Outcome.prepend_exit,
      Outcome.exit_bind, h0, hf1, List.append_nil, List.nil_append]
  · have h0 : malloc 0 = some (g 0) := hp 0 (by decide)
    have h1 : malloc 1 = some (g 1) := hp 1 (by decide)
    have hf2 : malloc 2 = none := hf
    simp only [List.foldl, Outcome.ret_bind, Outcome.prepend_ret, Outcome.prepend_exit,
      Outcome.exit_bind, h0, h1, hf2, List.append_nil, List.nil_append]
  · have h0 : malloc 0 = some (g 0) := hp 0 (by decide)
    have h1 : malloc 1 = some (g 1) := hp 1 (by decide)
    have h2 : malloc 2 = some (g 2) := hp 2 (by decide)
    have hf3 : malloc 3 = none := hf
    simp only [List.foldl, Outcome.ret_bind, Outcome.prepend_ret, Outcome.prepend_exit,
      Outcome.exit_bind, h0, h1, h2, hf3, List.append_nil, List.nil_append]

theorem main_setup_process_fail (heap : Heap) (g : Fin NUM_PAGES → Page)
    (i : Fin NUM_PROCESSES) (s : Locals) (j0 : Fin NUM_PAGES)
    (hp : ∀ j, j < j0 → heap.page_block i j = some (g j)) (hf : heap.page_block i j0 = none) :
    main_setup_process heap i s = Outcome.exit EXIT_FAILURE [Msg.erro_alocar_pagina] := by
  unfold main_setup_process
  rw [initialize_page_table_fail _ g _ j0 hp hf]
  rfl

theorem main_setup_fail (heap : Heap) (g : Fin NUM_PROCESSES → Fin NUM_PAGES → Page)
    (b : Fin NUM_PROCESSES → Fin NUM_PAGES → Int) (locals : Locals)
    (i0 : Fin NUM_PROCESSES) (j0 : Fin NUM_PAGES)
    (hp : ∀ i j, i < i0 → heap.page_block i j = some (g i j))
    (hb : ∀ i, i < i0 → heap.enderecos_block i = some (b i))
    (hp0 : ∀ j, j < j0 → heap.page_block i0 j = some (g i0 j))
    (hf : heap.page_block i0 j0 = none) :
    main_setup heap locals = Outcome.exit EXIT_FAILURE [Msg.erro_alocar_pagina] := by
  unfold main_setup
  rw [finRange_processes]
  simp only [List.foldl, Outcome.ret_bind]
  fin_cases i0
  · rw [main_setup_process_fail heap (g 0) 0 _ j0 hp0 hf]
    rfl
  · rw [main_setup_process_ok heap (g 0) (b 0) 0 _ (fun j => hp 0 j (by decide))
      (hb 0 (by decide))]
    simp only [Outcome.prepend_ret, Outcome.ret_bind]
    rw [main_setup_process_fail heap (g 1) 1 _ j0 hp0 hf]
    rfl
  · rw [main_setup_process_ok heap (g 0) (b 0) 0 _ (fun j => hp 0 j (by decide))
      (hb 0 (by decide))]
    simp only [Outcome.prepend_ret, Outcome.ret_bind]
    rw [main_setup_process_ok heap (g 1) (b 1) 1 _ (fun j => hp 1 j (by decide))
      (hb 1 (by decide))]
    simp only [Outcome.prepend_ret, Outcome.ret_bind]
    rw [main_setup_process_fail heap (g 2) 2 _ j0 hp0 hf]
    rfl
  · rw [main_setup_process_ok heap (g 0) (b 0) 0 _ (fun j => hp 0 j (by decide))
      (hb 0 (by decide))]
    simp only [Outcome.prepend_ret, Outcome.ret_bind]
    rw [main_setup_process_ok heap (g 1) (b 1) 1 _ (fun j => hp 1 j (by decide))
      (hb 1 (by decide))]
    simp only [Outcome.prepend_ret, Outcome.ret_bind]
    rw [main_setup_process_ok heap (g 2) (b 2) 2 _ (fun j => hp 2 j (by decide))
      (hb 2 (by decide))]
    simp only [Outcome.prepend_ret, Outcome.ret_bind]
    rw [main_setup_process_fail heap (g 3) 3 _ j0 hp0 hf]
    rfl

/-- C14: if the allocation of the page of slot `j0` of process `i0` fails, the
run having reached it (the allocations made before it succeeded), the
program ends inside the setup phase by `exit(EXIT_FAILURE)`, a status that
is not zero. What has been observed of the run up to the exit is the message
of `perror` and nothing else: no entry into `translate_address`, no header
of a process, no line with a physical address, no page fault. -/
theorem allocation_failure_exits (heap : Heap) (g : Fin NUM_PROCESSES → Fin NUM_PAGES → Page)
    (b : Fin NUM_PROCESSES → Fin NUM_PAGES → Int) (locals : Locals)
    (i0 : Fin NUM_PROCESSES) (j0 : Fin NUM_PAGES)
    (hp : ∀ i j, i < i0 → heap.page_block i j = some (g i j))
    (hb : ∀ i, i < i0 → heap.enderecos_block i = some (b i))
    (hp0 : ∀ j, j < j0 → heap.page_block i0 j = some (g i0 j))
    (hf : heap.page_block i0 j0 = none) :
    main_setup heap locals = Outcome.exit EXIT_FAILURE [Msg.erro_alocar_pagina]
    ∧ main heap locals = Outcome.exit EXIT_FAILURE [Msg.erro_alocar_pagina]
    ∧ EXIT_FAILURE ≠ 0
    ∧ ∃ out, main heap locals = Outcome.exit EXIT_FAILURE out
        ∧ (∀ a, Msg.translate_address_called a ∉ out)
        ∧ (∀ pid, Msg.processo pid ∉ out)
        ∧ (∀ va pa, Msg.endereco_fisico va pa ∉ out)
        ∧ (∀ page, Msg.page_fault page ∉ out) := by
  have hs := main_setup_fail heap g b locals i0 j0 hp hb hp0 hf
  have hm : main heap locals = Outcome.exit EXIT_FAILURE [Msg.erro_alocar_pagina] := by
    unfold main
    rw [hs]
    rfl
  refine ⟨hs, hm, by decide, _, hm, ?_, ?_, ?_, ?_⟩
  · intro a; simp
  · intro pid; simp
  · intro va pa; simp
  · intro page; simp

/-- Witness of C14: with `failing_heap` the third page of the second process
cannot be allocated and the run exits with `EXIT_FAILURE`; the first process
had been set up completely by then. -/
theorem allocation_failure_exits_witness :
    main_setup failing_heap sample_locals = Outcome.exit EXIT_FAILURE [Msg.erro_alocar_pagina]
    ∧ main failing_heap sample_locals = Outcome.exit EXIT_FAILURE [Msg.erro_alocar_pagina]
    ∧ EXIT_FAILURE ≠ 0
    ∧ ∃ out, main failing_heap sample_locals = Outcome.exit EXIT_FAILURE out
        ∧ (∀ a, Msg.translate_address_called a ∉ out)
        ∧ (∀ pid, Msg.processo pid ∉ out)
        ∧ (∀ va pa, Msg.endereco_fisico va pa ∉ out)
        ∧ (∀ page, Msg.page_fault page ∉ out) :=
  allocation_failure_exits failing_heap (fun _ _ => { page_number := 77, is_loaded := true })
    (fun _ _ => 99) sample_locals 1 2
    (fun i j hi => by fin_cases i <;> first | exact absurd hi (by decide) | rfl)
    (fun _ _ => rfl)
    (fun j hj => by fin_cases j <;> first | exact absurd hj (by decide) | rfl)
    rfl

/-! ## Frames are never released -/

theorem load_page_keeps_occupied (m : PhysicalMemory) (page : Option Nat) (i : Fin NUM_FRAMES)
    (hi : (m.frames i).is_free = false) :
    (load_page m page).1.frames i = m.frames i := by
  by_cases hfree : ∃ k, (m.frames k).is_free = true
  · obtain ⟨k, hk, _, _, _, hothers⟩ := load_page_scan_first m page hfree
    refine hothers i ?_
    intro hik
    rw [hik, hk] at hi
    exact absurd hi (by decide)
  · have hall : ∀ k, (m.frames k).is_free = false := by
      intro k
      cases hk : (m.frames k).is_free
      · rfl
      · exact absurd ⟨k, hk⟩ hfree
    rw [load_page_full m page hall]

theorem step_keeps_occupied (s s2 : PageTable × PhysicalMemory) (h : Step s s2)
    (i : Fin NUM_FRAMES) (hi : (s.2.frames i).is_free = false) :
    s2.2.frames i = s.2.frames i := by
  cases h with
  | load t m page => exact load_page_keeps_occupied m page i hi
  | map t t2 m p f out _ => rfl
  | translate t t2 m a r out _ => rfl

/-- C15: a frame that is not free before a call of `load_page` is the same
frame after it (not free, same page, same number); and along any sequence
of operations of the program (`load_page`, `map_page_to_frame`,
`translate_address`) a frame that is not free stays as it is, so no frame
ever goes from non-free to free. -/
theorem frames_never_freed :
    (∀ (m : PhysicalMemory) (page : Option Nat) (i : Fin NUM_FRAMES),
        (m.frames i).is_free = false →
        ((load_page m page).1.frames i).is_free = false
        ∧ ((load_page m page).1.frames i).page = (m.frames i).page
        ∧ (load_page m page).1.frames i = m.frames i)
    ∧ (∀ s s2 : PageTable × PhysicalMemory, Relation.ReflTransGen Step s s2 →
        ∀ i : Fin NUM_FRAMES, (s.2.frames i).is_free = false →
          (s2.2.frames i).is_free = false ∧ s2.2.frames i = s.2.frames i) := by
  constructor
  · intro m page i hi
    have h := load_page_keeps_occupied m page i hi
    rw [h]
    exact ⟨hi, rfl, rfl⟩
  · intro s s2 h
    induction h with
    | refl => exact fun i hi => ⟨hi, rfl⟩
    | tail _ hstep ih =>
      intro i hi
      obtain ⟨h1, h2⟩ := ih i hi
      have h3 := step_keeps_occupied _ _ hstep i h1
      rw [h3, h2]
      exact ⟨hi, rfl⟩

/-- Witness of C15: frame 0 of `sample_memory` is occupied; a call of
`load_page` takes frame 1 and leaves frame 0 as it is. -/
theorem frames_never_freed_witness :
    (sample_memory.frames 0).is_free = false
    ∧ ((load_page sample_memory (some 8)).1.frames 0).is_free = false
    ∧ ((load_page sample_memory (some 8)).1.frames 0).page = (sample_memory.frames 0).page
    ∧ (load_page sample_memory (some 8)).1.frames 0 = sample_memory.frames 0 :=
  ⟨rfl, frames_never_freed.1 sample_memory (some 8) 0 rfl⟩

/-! ## The driver leaves the physical memory alone -/

theorem initialize_physical_memory_frames (m : PhysicalMemory) (k : Fin NUM_FRAMES) :
    (initialize_physical_memory m).frames k
      = { frame_number := ((k : Nat) : Int), page := none, is_free := true } := by
  fin_cases k <;> rfl

/-- C16: when every allocation succeeds, the setup phase of `main` returns with
the physical memory exactly as `initialize_physical_memory` made it (frame
`k` has `frame_number = k`, no page, and is free), although in the table of
every process the pages 0 and 1 are valid and mapped to the frames 0 and 1. -/
theorem driver_memory_untouched (heap : Heap) (g : Fin NUM_PROCESSES → Fin NUM_PAGES → Page)
    (b : Fin NUM_PROCESSES → Fin NUM_PAGES → Int) (locals : Locals)
    (hp : ∀ i j, heap.page_block i j = some (g i j))
    (hb : ∀ i, heap.enderecos_block i = some (b i)) :
    ∃ s, main_setup heap locals = Outcome.ret s []
      ∧ s.physical_memory = initialize_physical_memory locals.physical_memory
      ∧ (∀ k : Fin NUM_FRAMES,
          s.physical_memory.frames k
            = { frame_number := ((k : Nat) : Int), page := none, is_free := true })
      ∧ ∀ (i : Fin NUM_PROCESSES) (j : Fin NUM_PAGES), (j : Nat) < NUM_FRAMES →
          ((s.page_tables i).entries j).valid = true
          ∧ ((s.page_tables i).entries j).frame_number = ((j : Nat) : Int) := by
  refine ⟨_, main_setup_ok heap g b locals hp hb, rfl, ?_, ?_⟩
  · intro k
    exact initialize_physical_memory_frames locals.physical_memory k
  · intro i j hj
    simp [driver_state, driver_entry, hj]

/-- Witness of C16: the setup with `sample_heap` and `sample_locals`, whose
physical memory starts with both frames occupied. -/
theorem driver_memory_untouched_witness :
    ∃ s, main_setup sample_heap sample_locals = Outcome.ret s []
      ∧ s.physical_memory = initialize_physical_memory sample_locals.physical_memory
      ∧ (∀ k : Fin NUM_FRAMES,
          s.physical_memory.frames k
            = { frame_number := ((k : Nat) : Int), page := none, is_free := true })
      ∧ ∀ (i : Fin NUM_PROCESSES) (j : Fin NUM_PAGES), (j : Nat) < NUM_FRAMES →
          ((s.page_tables i).entries j).valid = true
          ∧ ((s.page_tables i).entries j).frame_number = ((j : Nat) : Int) :=
  driver_memory_untouched sample_heap (fun _ _ => { page_number := 77, is_loaded := true })
    (fun _ _ => 99) sample_locals (fun _ _ => rfl) (fun _ => rfl)

/-! ## Capacity of the allocator -/

theorem load_pages_full (m : PhysicalMemory) (h : ∀ k, (m.frames k).is_free = false)
    (pages : List (Option Nat)) :
    load_pages m pages = (m, List.replicate pages.length false) := by
  induction pages with
  | nil => rfl
  | cons page rest ih =>
    simp only [load_pages, load_page_full m page h, ih, List.length_cons, List.replicate_succ]

theorem free_count_step (m : PhysicalMemory) (page : Option Nat)
    (h : (load_page m page).2 = true) :
    free_count (load_page m page).1 + 1 = free_count m := by
  unfold free_count load_page at *
  rw [finRange_frames] at *
  by_cases h0 : (m.frames 0).is_free = true
  · by_cases h1 : (m.frames 1).is_free = true
    · simp [load_page_scan, h0, h1, List.countP_cons, Function.update]
    · simp [load_page_scan, h0, h1, List.countP_cons, Function.update]
  · by_cases h1 : (m.frames 1).is_free = true
    · simp [load_page_scan, h0, h1, List.countP_cons, Function.update]
    · simp [load_page_scan, h0, h1] at h

theorem load_pages_init_two (m0 : PhysicalMemory) (p1 p2 : Option Nat)
    (rest : List (Option Nat)) :
    load_pages (initialize_physical_memory m0) (p1 :: p2 :: rest)
      = ((load_page (load_page (initialize_physical_memory m0) p1).1 p2).1,
          true :: true :: List.replicate rest.length false) := by
  have hfull : ∀ k,
      ((load_page (load_page (initialize_physical_memory m0) p1).1 p2).1.frames k).is_free
        = false := by
    intro k
    fin_cases k <;> rfl
  simp only [load_pages]
  rw [load_pages_full _ hfull]
  rfl

/-- C17: starting from the memory made by `initialize_physical_memory`, in any
sequence of `n` calls of `load_page` the first `min n FRAME_COUNT` calls
return `true` and the others `false`; afterwards frame `k` holds the page of
call `k + 1` if that call was made and is free otherwise (so the calls after
the `FRAME_COUNT`-th change nothing), the number of free frames is
`FRAME_COUNT - min n FRAME_COUNT`, and on any memory a call that returns
`true` lowers the number of free frames by exactly one. -/
theorem load_page_capacity (m0 : PhysicalMemory) (pages : List (Option Nat)) :
    (load_pages (initialize_physical_memory m0) pages).2
        = List.replicate (min pages.length NUM_FRAMES) true
          ++ List.replicate (pages.length - NUM_FRAMES) false
    ∧ (∀ k : Fin NUM_FRAMES,
        (load_pages (initialize_physical_memory m0) pages).1.frames k
          = if (k : Nat) < pages.length then
              { frame_number := ((k : Nat) : Int), page := pages.getD (k : Nat) none,
                is_free := false }
            else { frame_number := ((k : Nat) : Int), page := none, is_free := true })
    ∧ free_count (load_pages (initialize_physical_memory m0) pages).1
        = NUM_FRAMES - min pages.length NUM_FRAMES
    ∧ (∀ (m : PhysicalMemory) (page : Option Nat), (load_page m page).2 = true →
        free_count (load_page m page).1 + 1 = free_count m) := by
  rcases pages with _ | ⟨p1, _ | ⟨p2, rest⟩⟩
  · refine ⟨rfl, ?_, rfl, free_count_step⟩
    intro k
    fin_cases k <;> rfl
  · refine ⟨rfl, ?_, rfl, free_count_step⟩
    intro k
    fin_cases k <;> rfl
  · rw [load_pages_init_two]
    have hN : NUM_FRAMES = 2 := rfl
    have hmin : min (p1 :: p2 :: rest).length NUM_FRAMES = 2 := by
      simp only [List.length_cons]; omega
    have hsub : (p1 :: p2 :: rest).length - NUM_FRAMES = rest.length := by
      simp only [List.length_cons]; omega
    refine ⟨?_, ?_, ?_, free_count_step⟩
    · rw [hmin, hsub]
      rfl
    · intro k
      have hk : (k : Nat) < (p1 :: p2 :: rest).length := by
        have := k.isLt
        simp only [List.length_cons]; omega
      rw [if_pos hk]
      fin_cases k <;> rfl
    · rw [hmin]
      rfl

/-! ## Where a physical address lies -/

theorem translate_address_success (page_table : PageTable) (a r : Int) (ha : 0 ≤ a)
    (h : translate_address page_table a = Outcome.ret r [Msg.translate_address_called a]) :
    ∃ p : Fin NUM_PAGES, a / TAMANHO_PAGINA = ((p : Nat) : Int)
      ∧ (page_table.entries p).valid = true
      ∧ r = wrap_int ((page_table.entries p).frame_number * TAMANHO_PAGINA
              + a % TAMANHO_PAGINA) := by
  rcases translate_address_nonneg page_table a ha with ⟨p, hp, hv, ht⟩ | ht
  · rw [ht] at h
    exact ⟨p, hp, hv, (Outcome.ret.inj h).1.symm⟩
  · rw [ht] at h
    have := (Outcome.ret.inj h).2
    simp at this

/-- C18: in a page table whose valid entries have `0 <= frame_number <
FRAME_COUNT`, if `translate_address` succeeds on a non-negative address `a`
with result `r`, then for the entry `p = a / PAGE_SIZE` it went through
`r / PAGE_SIZE = entries[p].frame_number`, `r % PAGE_SIZE = a % PAGE_SIZE`
and `0 <= r < FRAME_COUNT * PAGE_SIZE`; in particular `r` is not `-1`. -/
theorem translate_address_in_frame (page_table : PageTable)
    (hleg : ∀ j, (page_table.entries j).valid = true →
      0 ≤ (page_table.entries j).frame_number
      ∧ (page_table.entries j).frame_number < (NUM_FRAMES : Int))
    (a r : Int) (ha : 0 ≤ a)
    (h : translate_address page_table a = Outcome.ret r [Msg.translate_address_called a]) :
    ∃ p : Fin NUM_PAGES, a / TAMANHO_PAGINA = ((p : Nat) : Int)
      ∧ (page_table.entries p).valid = true
      ∧ r / TAMANHO_PAGINA = (page_table.entries p).frame_number
      ∧ r % TAMANHO_PAGINA = a % TAMANHO_PAGINA
      ∧ 0 ≤ r ∧ r < (NUM_FRAMES : Int) * TAMANHO_PAGINA
      ∧ r ≠ -1 := by
  obtain ⟨p, hp, hv, hr⟩ := translate_address_success page_table a r ha h
  obtain ⟨h0, h1⟩ := hleg p hv
  have hT : TAMANHO_PAGINA = 4 := rfl
  have hN : ((NUM_FRAMES : Nat) : Int) = 2 := rfl
  unfold wrap_int at hr
  rw [hT] at hr hp ⊢
  rw [hN] at h1 ⊢
  refine ⟨p, hp, hv, ?_, ?_, ?_, ?_, ?_⟩ <;> omega

/-- Witness of C18: in `sample_table` address 5 lies in page 1, mapped to
frame 1, and translates to 5. -/
theorem translate_address_in_frame_witness :
    ∃ p : Fin NUM_PAGES, (5 : Int) / TAMANHO_PAGINA = ((p : Nat) : Int)
      ∧ (sample_table.entries p).valid = true
      ∧ (5 : Int) / TAMANHO_PAGINA = (sample_table.entries p).frame_number
      ∧ (5 : Int) % TAMANHO_PAGINA = 5 % TAMANHO_PAGINA
      ∧ 0 ≤ (5 : Int) ∧ (5 : Int) < (NUM_FRAMES : Int) * TAMANHO_PAGINA
      ∧ (5 : Int) ≠ -1 :=
  translate_address_in_frame sample_table
    (fun j hj => by
      fin_cases j
      · exact ⟨by decide, by decide⟩
      · exact ⟨by decide, by decide⟩
      · exact absurd hj (by decide)
      · exact absurd hj (by decide))
    5 5 (by decide) rfl

/-! ## Injectivity of the translation -/

/-- C19 (counterexample): page 1 of `sample_table` mapped to frame `2^30` by
`map_page_to_frame`; the valid entries then carry the distinct, non-negative
frame numbers 0 and 1073741824, and `translate_address` succeeds with the
result 0 both on address 0 and on address 4. -/
theorem translate_address_injective_counterexample :
    ∃ t, map_page_to_frame sample_table 1 1073741824 = Outcome.ret t []
      ∧ (∀ i j, (t.entries i).valid = true → (t.entries j).valid = true →
          (t.entries i).frame_number = (t.entries j).frame_number → i = j)
      ∧ (∀ j, (t.entries j).valid = true → 0 ≤ (t.entries j).frame_number)
      ∧ translate_address t 0 = Outcome.ret 0 [Msg.translate_address_called 0]
      ∧ translate_address t 4 = Outcome.ret 0 [Msg.translate_address_called 4]
      ∧ (0 : Int) ≠ 4 := by
  refine ⟨_, rfl, ?_, ?_, rfl, rfl, by decide⟩
  · intro i j hi hj hf
    fin_cases i <;> fin_cases j <;>
      first
        | rfl
        | exact absurd hi (by decide)
        | exact absurd hj (by decide)
        | exact absurd hf (by decide)
  · intro j hj
    fin_cases j
    · decide
    · decide
    · exact absurd hj (by decide)
    · exact absurd hj (by decide)

/-- C19 (amended): in a page table whose valid entries carry pairwise distinct,
non-negative frame numbers below `2^30`, two non-negative addresses on which
`translate_address` succeeds with the same result are equal. -/
theorem translate_address_injective (page_table : PageTable)
    (hinj : ∀ i j, (page_table.entries i).valid = true → (page_table.entries j).valid = true →
      (page_table.entries i).frame_number = (page_table.entries j).frame_number → i = j)
    (hnn : ∀ j, (page_table.entries j).valid = true → 0 ≤ (page_table.entries j).frame_number)
    (hbound : ∀ j, (page_table.entries j).valid = true →
      (page_table.entries j).frame_number < 1073741824)
    (a b r : Int) (ha : 0 ≤ a) (hb : 0 ≤ b)
    (hta : translate_address page_table a = Outcome.ret r [Msg.translate_address_called a])
    (htb : translate_address page_table b = Outcome.ret r [Msg.translate_address_called b]) :
    a = b := by
  obtain ⟨p, hp, hvp, hrp⟩ := translate_address_success page_table a r ha hta
  obtain ⟨q, hq, hvq, hrq⟩ := translate_address_success page_table b r hb htb
  have hp0 := hnn p hvp
  have hq0 := hnn q hvq
  have hp1 := hbound p hvp
  have hq1 := hbound q hvq
  have hT : TAMANHO_PAGINA = 4 := rfl
  unfold wrap_int at hrp hrq
  rw [hT] at hp hq hrp hrq
  have hf : (page_table.entries p).frame_number = (page_table.entries q).frame_number := by
    omega
  have hpq : p = q := hinj p q hvp hvq hf
  subst hpq
  omega

/-- Witness of C19: in `sample_table`, whose valid entries have the frames 0
and 1, address 5 translates to 5, and an address that translates to 5 is 5. -/
theorem translate_address_injective_witness :
    translate_address sample_table 5 = Outcome.ret 5 [Msg.translate_address_called 5]
      ∧ (5 : Int) = 5 :=
  ⟨rfl, translate_address_injective sample_table
    (fun i j hi hj hf => by
      fin_cases i <;> fin_cases j <;>
        first
          | rfl
          | exact absurd hi (by decide)
          | exact absurd hj (by decide)
          | exact absurd hf (by decide))
    (fun j hj => by
      fin_cases j
      · decide
      · decide
      · exact absurd hj (by decide)
      · exact absurd hj (by decide))
    (fun j hj => by
      fin_cases j
      · decide
      · decide
      · exact absurd hj (by decide)
      · exact absurd hj (by decide))
    5 5 5 (by decide) (by decide) rfl rfl⟩

end Lab08
